import Mathlib

/-!
Shallow embedding of the video trimming utility (`src/video_cutter.py` and the
duration probe of `src/video_cutter_gui.py`).

Modelling conventions:
* Python floats are modelled as rationals (`ℚ`), exactly; `float(...)` string
  conversion is modelled for finite decimal literals (optional sign, digits,
  decimal point, exponent) over ASCII, without underscore separators and
  without `inf`/`nan`, which have no rational value.
* Python `round` is round-half-to-even (`pyRound`), `int(...)` on a number is
  truncation toward zero (`pyTrunc`), `divmod` on integers with a positive
  modulus is Euclidean division (`Int.ediv` / `Int.emod`).
* Strings are processed as `List Char`; the filesystem and child processes are
  abstracted: the resolved tool location and the child-process outcome enter
  the model as explicit parameters.
-/

attribute [local semireducible] Rat.add Rat.mul Rat.inv Rat.sub Rat.ofScientific

deriving instance DecidableEq for Except

/-- Decimal digit character of a value below ten, used by the model of
Python's decimal rendering of integers. -/
def digitChar : ℕ → Char
  | 0 => '0' | 1 => '1' | 2 => '2' | 3 => '3' | 4 => '4'
  | 5 => '5' | 6 => '6' | 7 => '7' | 8 => '8' | _ => '9'

/-- Fuel-indexed decimal rendering of a natural number (most significant digit
first); with fuel above the number of digits it renders all digits. -/
def natToStrAux : ℕ → ℕ → List Char
  | 0, _ => []
  | fuel + 1, n =>
    if n < 10 then [digitChar n]
    else natToStrAux fuel (n / 10) ++ [digitChar (n % 10)]

/-- Decimal rendering of a natural number, as Python's `str` produces it. -/
def natToStr (n : ℕ) : List Char := natToStrAux (n + 1) n

/-- Value of a list of decimal digit characters (the accumulator form used by
the model of Python's number parsing). -/
def natOfDigits (l : List Char) : ℕ := l.foldl (fun a c => 10 * a + (c.toNat - 48)) 0

/-- Left-pad a rendered number with zeros to a minimum width, as Python's
zero-padded format specifications do. -/
def zeroPadTo (w : ℕ) (l : List Char) : List Char := List.replicate (w - l.length) '0' ++ l

/-- Python `f"{n:0wd}"` for a natural number. -/
def padNat (w n : ℕ) : List Char := zeroPadTo w (natToStr n)

/-- Python `f"{n:0wd}"` for an integer: the zero padding goes after the sign. -/
def padInt (w : ℕ) (n : ℤ) : List Char :=
  if n < 0 then '-' :: zeroPadTo (w - 1) (natToStr (-n).toNat) else padNat w n.toNat

/-- Python `str` of an integer. -/
def intToStr (n : ℤ) : List Char :=
  if n < 0 then '-' :: natToStr (-n).toNat else natToStr n.toNat

/-- The ASCII whitespace characters stripped by Python's `str.strip` and
`float`. -/
def isPySpace (c : Char) : Bool :=
  c = ' ' || c = '\t' || c = '\n' || c = '\r' || c = '\x0b' || c = '\x0c'

/-- Python `str.strip`: drop leading and trailing whitespace. -/
def stripChars (l : List Char) : List Char :=
  ((l.dropWhile isPySpace).reverse.dropWhile isPySpace).reverse

/-- Worker for `splitOnChar`; `acc` holds the current chunk reversed. -/
def splitOnCharAux (sep : Char) : List Char → List Char → List (List Char)
  | [], acc => [acc.reverse]
  | c :: t, acc =>
    if c = sep then acc.reverse :: splitOnCharAux sep t []
    else splitOnCharAux sep t (c :: acc)

/-- Python `str.split(sep)` for a one-character separator. -/
def splitOnChar (sep : Char) (l : List Char) : List (List Char) :=
  splitOnCharAux sep l []

/-- Python `round` on an exact rational: round half to even. -/
def pyRound (q : ℚ) : ℤ :=
  let f := ⌊q⌋
  let r := q - (f : ℚ)
  if r < 1 / 2 then f
  else if (1 : ℚ) / 2 < r then f + 1
  else if Int.emod f 2 = 0 then f else f + 1

/-- Python `int(...)` on a number: truncation toward zero. -/
def pyTrunc (q : ℚ) : ℤ := if q < 0 then -⌊-q⌋ else ⌊q⌋

/-- Integer power of ten over the rationals (value of a decimal exponent). -/
def qpow10 (e : ℤ) : ℚ :=
  if 0 ≤ e then ((10 : ℚ) ^ e.toNat) else ((10 : ℚ) ^ (-e).toNat)⁻¹

/-- Leading optional sign of a decimal literal, as a rational factor. -/
def splitSignQ (l : List Char) : ℚ × List Char :=
  match l with
  | c :: t => if c = '+' then (1, t) else if c = '-' then (-1, t) else (1, l)
  | [] => (1, l)

/-- Mantissa of a decimal literal: digits, optionally a decimal point and
further digits; at least one digit overall. Returns its value and the rest. -/
def parseMantissa (l : List Char) : Option (ℚ × List Char) :=
  let ip := l.takeWhile Char.isDigit
  let r1 := l.dropWhile Char.isDigit
  match r1 with
  | c :: r2 =>
    if c = '.' then
      let fp := r2.takeWhile Char.isDigit
      let r3 := r2.dropWhile Char.isDigit
      if ip = [] ∧ fp = [] then none
      else some ((natOfDigits ip : ℚ) + (natOfDigits fp : ℚ) / 10 ^ fp.length, r3)
    else if ip = [] then none
    else some ((natOfDigits ip : ℚ), c :: r2)
  | [] => if ip = [] then none else some ((natOfDigits ip : ℚ), [])

/-- Exponent digits after the `e` marker: optional sign then digits. -/
def parseExpTail (r : List Char) : Option (ℤ × List Char) :=
  let p : ℤ × List Char :=
    match r with
    | c :: t => if c = '+' then (1, t) else if c = '-' then (-1, t) else (1, r)
    | [] => (1, r)
  let ds := p.2.takeWhile Char.isDigit
  let r2 := p.2.dropWhile Char.isDigit
  if ds = [] then none else some (p.1 * (natOfDigits ds : ℤ), r2)

/-- Optional exponent part of a decimal literal. -/
def parseExp (l : List Char) : Option (ℤ × List Char) :=
  match l with
  | c :: t => if c = 'e' ∨ c = 'E' then parseExpTail t else some (0, l)
  | [] => some (0, [])

/-- Python `float(...)` on a character list: strip whitespace, optional sign,
mantissa, optional exponent; the whole input must be consumed. `none` models
the `ValueError` raised on malformed input. -/
def pyFloatL (l0 : List Char) : Option ℚ :=
  let l := stripChars l0
  let s := splitSignQ l
  match parseMantissa s.2 with
  | none => none
  | some m =>
    match parseExp m.2 with
    | none => none
    | some e => if e.2 = [] then some (s.1 * m.1 * qpow10 e.1) else none

/-- Python `float(...)` on a string. -/
def pyFloat (s : String) : Option ℚ := pyFloatL s.toList

/-!  The embedding of `src/video_cutter.py` itself.  -/

/-- Worker of `parse_timestamp` over character lists.  Transcribes
`parse_timestamp` (src/video_cutter.py lines 19-49): strip; empty input is an
error; without a colon the whole string is one float; otherwise split on
colons, reject more than three fields, convert every field with `float`
(a failed conversion propagates Python's `ValueError` message), and combine
the fields as hours, minutes and seconds.  The one-field and zero-field
arms of the final match mirror `seconds = parts[0]` (unreachable after the
colon test, the zero-field arm would be Python's `IndexError`). -/
def parse_timestampL (l0 : List Char) : Except String ℚ :=
  let v := stripChars l0
  if v = [] then .error "empty timestamp"
  else if v.contains ':' = false then
    match pyFloatL v with
    | some q => .ok q
    | none => .error ("Invalid seconds value '" ++ String.mk v ++ "'")
  else
    let parts := splitOnChar ':' v
    if 3 < parts.length then
      .error ("Invalid timestamp '" ++ String.mk v ++ "'. Use SS, MM:SS or HH:MM:SS formats.")
    else
      match floatParts parts with
      | .error e => .error e
      | .ok qs =>
        match qs with
        | [h, m, s] => .ok (h * 3600 + m * 60 + s)
        | [m, s] => .ok (m * 60 + s)
        | [s] => .ok s
        | _ => .error "IndexError"
where
  /-- Model of `[float(p) for p in parts]`: the first failure raises Python's message. -/
  floatParts : List (List Char) → Except String (List ℚ)
  | [] => .ok []
  | p :: rest =>
    match pyFloatL p with
    | none => .error ("could not convert string to float: '" ++ String.mk p ++ "'")
    | some q =>
      match floatParts rest with
      | .error e => .error e
      | .ok qs => .ok (q :: qs)

/-- Embedding of `parse_timestamp(value)` of src/video_cutter.py: seconds of a timestamp
string, or the raised `ValueError` message. -/
def parse_timestamp (s : String) : Except String ℚ := parse_timestampL s.toList

/-- Python `f"{q:06.3f}"`: three decimal places, zero-padded to width six,
with the zero padding after the sign. -/
def formatFloat63 (q : ℚ) : List Char :=
  let m := pyRound (q * 1000)
  if m < 0 then '-' :: zeroPadTo 5 (fixed3 (-m).toNat) else zeroPadTo 6 (fixed3 m.toNat)
where
  /-- Digits of `n/1000` with exactly three decimal places. -/
  fixed3 (n : ℕ) : List Char := natToStr (n / 1000) ++ '.' :: zeroPadTo 3 (natToStr (n % 1000))

/-- Embedding of `format_timestamp(seconds)` of src/video_cutter.py lines 52-58:
`millis = round(seconds * 1000)`, two `divmod`s, and the f-string
`f"{hours:02d}:{minutes:02d}:{secs:06.3f}"`. -/
def format_timestamp (seconds : ℚ) : String :=
  let millis : ℤ := pyRound (seconds * 1000)
  let hours : ℤ := Int.ediv millis 3600000
  let r1 : ℤ := Int.emod millis 3600000
  let minutes : ℤ := Int.ediv r1 60000
  let r2 : ℤ := Int.emod r1 60000
  let secs : ℚ := (r2 : ℚ) / 1000
  String.mk (padInt 2 hours ++ ':' :: padInt 2 minutes ++ ':' :: formatFloat63 secs)

/-- A `pathlib.Path`: parent directory components and the final component.
Rendering with `pathStr` joins with `/` (the POSIX form). -/
structure PyPath where
  parent : List String
  name : String
deriving DecidableEq

/-- Index of the last `.` in a character list (Python `str.rfind('.')`,
with `none` for "not found"). -/
def rfindDot (cs : List Char) : Option ℕ :=
  match cs.reverse.findIdx? (· = '.') with
  | none => none
  | some j => some (cs.length - 1 - j)

/-- Model of `Path.suffix`: the final component's last extension, `".ext"`, or `""`
when the last dot is absent, leading, or trailing (CPython:
`i = name.rfind('.'); return name[i:] if 0 < i < len(name) - 1 else ''`). -/
def PyPath.suffixStr (p : PyPath) : String :=
  let cs := p.name.toList
  match rfindDot cs with
  | none => ""
  | some i => if 0 < i ∧ i + 1 < cs.length then String.mk (cs.drop i) else ""

/-- Model of `Path.stem`: the final component with its `suffix` removed. -/
def PyPath.stem (p : PyPath) : String :=
  let cs := p.name.toList
  match rfindDot cs with
  | none => p.name
  | some i => if 0 < i ∧ i + 1 < cs.length then String.mk (cs.take i) else p.name

/-- Model of `Path.with_name(n)`: same parent, new final component. -/
def PyPath.with_name (p : PyPath) (n : String) : PyPath := { p with name := n }

/-- Model of `str(path)` in the POSIX rendering. -/
def pathStr (p : PyPath) : String := String.intercalate "/" (p.parent ++ [p.name])

/-- Embedding of `build_output_path(input_path, suffix)` of src/video_cutter.py lines
61-63: sibling of the input named `f"{stem}_{suffix}{input_path.suffix}"`. -/
def build_output_path (input_path : PyPath) (sfx : String) : PyPath :=
  input_path.with_name (input_path.stem ++ "_" ++ sfx ++ input_path.suffixStr)

/-- Python exceptions of src/video_cutter.py: `ValueError` (malformed or
invalid timestamps) and `RuntimeError` (ffmpeg missing or failing). -/
inductive PyErr where
  | valueError (msg : String)
  | runtimeError (msg : String)
deriving DecidableEq

/-- The message of the `RuntimeError` raised by `ensure_ffmpeg_available`
when no candidate and no PATH entry holds ffmpeg (lines 118-121). -/
def ffmpegNotFoundMsg : String :=
  "No se encontró ffmpeg. Coloca ffmpeg junto al ejecutable o " ++
  "instálalo y añádelo al PATH. Descargas: https://ffmpeg.org/download.html"

/-- Embedding of `ensure_ffmpeg_available()` of src/video_cutter.py lines 66-121.  The
filesystem search over the candidate list and PATH is environment-dependent;
its outcome enters the model as `located` (the first hit, if any).  With no
hit the function raises the `RuntimeError` with the download link. -/
def ensure_ffmpeg_available (located : Option String) : Except PyErr String :=
  match located with
  | some p => .ok p
  | none => .error (.runtimeError ffmpegNotFoundMsg)

/-- Embedding of `build_command(...)` of src/video_cutter.py lines 124-147: the exact
ffmpeg argument vector (a tuple in the source, a list here). -/
def build_command (ffmpeg_path : String) (input_file output_file : PyPath)
    (start_ts end_ts : String) : List String :=
  [ffmpeg_path, "-hide_banner", "-loglevel", "error", "-y",
   "-ss", start_ts, "-to", end_ts,
   "-i", pathStr input_file, "-c", "copy", pathStr output_file]

/-- Embedding of `cut_video(...)` of src/video_cutter.py lines 150-170 up to (and
including) building the subprocess command: resolve ffmpeg, parse both
timestamps (a `ValueError` propagates), validate sign and order, format,
derive the output path when none is given, and build the argument vector.
Returns the command and the output path handed to `subprocess.run`. -/
def cutVideoPlan (located : Option String) (input_file : PyPath)
    (start endTs : String) (output : Option PyPath) :
    Except PyErr (List String × PyPath) :=
  match ensure_ffmpeg_available located with
  | .error e => .error e
  | .ok ffmpeg_path =>
    match parse_timestamp start with
    | .error m => .error (.valueError m)
    | .ok start_seconds =>
      match parse_timestamp endTs with
      | .error m => .error (.valueError m)
      | .ok end_seconds =>
        if start_seconds < 0 ∨ end_seconds < 0 then
          .error (.valueError "Los tiempos deben ser mayores o iguales a 0.")
        else if end_seconds ≤ start_seconds then
          .error (.valueError "El tiempo final debe ser mayor que el inicial.")
        else
          let formatted_start := format_timestamp start_seconds
          let formatted_end := format_timestamp end_seconds
          let out : PyPath :=
            match output with
            | some o => o
            | none =>
              build_output_path input_file
                (String.mk (intToStr (pyTrunc start_seconds)) ++ "s_" ++
                 String.mk (intToStr (pyTrunc end_seconds)) ++ "s")
          .ok (build_command ffmpeg_path input_file out formatted_start formatted_end, out)

/-- Embedding of `cut_video(...)` of src/video_cutter.py lines 150-180 end to end.  The
child process is external; `runOk` tells whether `subprocess.run(command,
check=True)` succeeded.  A `CalledProcessError` is re-raised as the generic
`RuntimeError` of lines 174-178. -/
def cut_video (located : Option String) (runOk : Bool) (input_file : PyPath)
    (start endTs : String) (output : Option PyPath) : Except PyErr PyPath :=
  match cutVideoPlan located input_file start endTs output with
  | .error e => .error e
  | .ok (_, out) =>
    if runOk then .ok out
    else .error (.runtimeError
      ("ffmpeg no pudo generar el recorte. " ++
       "Revisa que el video y los timestamps sean válidos."))

/-- Embedding of `_probe_duration(video_path)` of src/video_cutter_gui.py lines 394-420.
`ffprobe` is the result of `shutil.which("ffprobe")`; `runResult` is the
child-process outcome (`none` for a `CalledProcessError`, otherwise the
captured stdout).  Every failure becomes the `None` sentinel: tool missing,
non-zero exit, or stdout that `float` rejects. -/
def probe_duration (ffprobe : Option String) (runResult : Option String) : Option ℚ :=
  match ffprobe with
  | none => none
  | some _ =>
    match runResult with
    | none => none
    | some stdout => pyFloatL (stripChars stdout.toList)

/-!  Lemmas about the decimal rendering helpers.  -/

theorem digitChar_isDigit (n : ℕ) : (digitChar n).isDigit = true := by
  unfold digitChar
  split <;> decide

theorem digitChar_toNat (n : ℕ) (h : n < 10) : (digitChar n).toNat - 48 = n := by
  interval_cases n <;> decide

theorem natOfDigits_append_single (l : List Char) (c : Char) :
    natOfDigits (l ++ [c]) = 10 * natOfDigits l + (c.toNat - 48) := by
  unfold natOfDigits
  rw [List.foldl_append]
  rfl

theorem natToStrAux_isDigit (fuel n : ℕ) : ∀ c ∈ natToStrAux fuel n, c.isDigit = true := by
  induction fuel generalizing n with
  | zero => intro c hc; simp [natToStrAux] at hc
  | succ fuel ih =>
    intro c hc
    unfold natToStrAux at hc
    by_cases h : n < 10
    · simp [h] at hc
      simp [hc, digitChar_isDigit]
    · simp [h, List.mem_append] at hc
      rcases hc with hc | hc
      · exact ih (n / 10) c hc
      · simp [hc, digitChar_isDigit]

theorem natToStrAux_ne_nil (fuel n : ℕ) (h : fuel ≠ 0) : natToStrAux fuel n ≠ [] := by
  cases fuel with
  | zero => exact absurd rfl h
  | succ fuel =>
    unfold natToStrAux
    by_cases h10 : n < 10
    · simp [h10]
    · simp [h10]

theorem natOfDigits_natToStrAux (fuel n : ℕ) (h : n < 10 ^ fuel) :
    natOfDigits (natToStrAux fuel n) = n := by
  induction fuel generalizing n with
  | zero =>
    simp at h
    simp [h, natToStrAux, natOfDigits]
  | succ fuel ih =>
    unfold natToStrAux
    by_cases h10 : n < 10
    · simp [h10, natOfDigits, digitChar_toNat n h10]
    · simp only [h10, if_false]
      rw [natOfDigits_append_single, ih (n / 10) ?_, digitChar_toNat (n % 10) (Nat.mod_lt n (by norm_num))]
      · exact (Nat.div_add_mod n 10).symm ▸ by omega
      · have : n / 10 < 10 ^ fuel := by
          rw [Nat.div_lt_iff_lt_mul (by norm_num)]
          calc n < 10 ^ (fuel + 1) := h
          _ = 10 ^ fuel * 10 := by ring
        exact this

theorem natToStrAux_length_le (fuel n k : ℕ) (hk : 1 ≤ k) (h : n < 10 ^ k) :
    (natToStrAux fuel n).length ≤ k := by
  induction fuel generalizing n k with
  | zero => simp [natToStrAux]
  | succ fuel ih =>
    unfold natToStrAux
    by_cases h10 : n < 10
    · simpa [h10] using hk
    · simp only [h10, if_false, List.length_append, List.length_cons, List.length_nil]
      have hk2 : 2 ≤ k := by
        by_contra hlt
        have : k = 1 := by omega
        subst this
        simp at h
        omega
      have : n / 10 < 10 ^ (k - 1) := by
        rw [Nat.div_lt_iff_lt_mul (by norm_num)]
        calc n < 10 ^ k := h
        _ = 10 ^ (k - 1) * 10 := by
          rw [← pow_succ]
          congr 1
          omega
      have := ih (n / 10) (k - 1) (by omega) this
      omega

theorem natToStr_isDigit (n : ℕ) : ∀ c ∈ natToStr n, c.isDigit = true :=
  natToStrAux_isDigit (n + 1) n

theorem natToStr_ne_nil (n : ℕ) : natToStr n ≠ [] :=
  natToStrAux_ne_nil (n + 1) n (by omega)

theorem natOfDigits_natToStr (n : ℕ) : natOfDigits (natToStr n) = n :=
  natOfDigits_natToStrAux (n + 1) n
    (lt_of_lt_of_le (Nat.lt_pow_self (by norm_num) n) (Nat.pow_le_pow_right (by norm_num) (by omega)))

theorem natToStr_length_le (n k : ℕ) (hk : 1 ≤ k) (h : n < 10 ^ k) :
    (natToStr n).length ≤ k :=
  natToStrAux_length_le (n + 1) n k hk h

theorem natOfDigits_replicate_zero (k : ℕ) (l : List Char) :
    natOfDigits (List.replicate k '0' ++ l) = natOfDigits l := by
  induction k with
  | zero => simp
  | succ k ih =>
    have : List.replicate (k + 1) '0' ++ l = '0' :: (List.replicate k '0' ++ l) := by
      simp [List.replicate_succ]
    rw [this]
    unfold natOfDigits at *
    simpa using ih

theorem zeroPadTo_isDigit (w : ℕ) (l : List Char) (h : ∀ c ∈ l, c.isDigit = true) :
    ∀ c ∈ zeroPadTo w l, c.isDigit = true := by
  intro c hc
  unfold zeroPadTo at hc
  rw [List.mem_append] at hc
  rcases hc with hc | hc
  · rw [List.eq_of_mem_replicate hc]; decide
  · exact h c hc

theorem zeroPadTo_ne_nil (w : ℕ) (l : List Char) (h : l ≠ []) : zeroPadTo w l ≠ [] := by
  unfold zeroPadTo
  simp [h]

theorem zeroPadTo_length (w : ℕ) (l : List Char) (h : l.length ≤ w) :
    (zeroPadTo w l).length = w := by
  unfold zeroPadTo
  simp
  omega

theorem padNat_isDigit (w n : ℕ) : ∀ c ∈ padNat w n, c.isDigit = true :=
  zeroPadTo_isDigit w _ (natToStr_isDigit n)

theorem padNat_ne_nil (w n : ℕ) : padNat w n ≠ [] :=
  zeroPadTo_ne_nil w _ (natToStr_ne_nil n)

theorem natOfDigits_padNat (w n : ℕ) : natOfDigits (padNat w n) = n := by
  unfold padNat zeroPadTo
  rw [natOfDigits_replicate_zero, natOfDigits_natToStr]

theorem padNat_length (w n k : ℕ) (hwk : w ≤ k) (hk : 1 ≤ k) (h : n < 10 ^ k) :
    w ≤ (padNat w n).length ∧ (padNat w n).length ≤ k := by
  unfold padNat zeroPadTo
  have := natToStr_length_le n k hk h
  simp
  omega

theorem padNat_length_eq (w n : ℕ) (hw : 1 ≤ w) (h : n < 10 ^ w) :
    (padNat w n).length = w :=
  zeroPadTo_length w _ (natToStr_length_le n w hw h)

/-!  Lemmas about character classes, stripping and splitting.  -/

theorem isDigit_ne (c d : Char) (hc : c.isDigit = true) (hd : d.isDigit = false) : ¬ c = d := by
  intro h
  subst h
  rw [hc] at hd
  exact Bool.noConfusion hd

theorem isDigit_not_space (c : Char) (hc : c.isDigit = true) : isPySpace c = false := by
  unfold isPySpace
  have h1 : ¬ c = ' ' := isDigit_ne c ' ' hc (by decide)
  have h2 : ¬ c = '\t' := isDigit_ne c '\t' hc (by decide)
  have h3 : ¬ c = '\n' := isDigit_ne c '\n' hc (by decide)
  have h4 : ¬ c = '\r' := isDigit_ne c '\r' hc (by decide)
  have h5 : ¬ c = '\x0b' := isDigit_ne c '\x0b' hc (by decide)
  have h6 : ¬ c = '\x0c' := isDigit_ne c '\x0c' hc (by decide)
  simp [h1, h2, h3, h4, h5, h6]

theorem takeWhile_all (p : Char → Bool) (l : List Char) (h : ∀ c ∈ l, p c = true) :
    l.takeWhile p = l := by
  induction l with
  | nil => rfl
  | cons a t ih =>
    rw [List.takeWhile_cons, if_pos (h a (by simp))]
    rw [ih (fun c hc => h c (by simp [hc]))]

theorem dropWhile_all (p : Char → Bool) (l : List Char) (h : ∀ c ∈ l, p c = true) :
    l.dropWhile p = [] := by
  induction l with
  | nil => rfl
  | cons a t ih =>
    rw [List.dropWhile_cons, if_pos (h a (by simp))]
    exact ih (fun c hc => h c (by simp [hc]))

theorem dropWhile_none (p : Char → Bool) (l : List Char) (h : ∀ c ∈ l, p c = false) :
    l.dropWhile p = l := by
  cases l with
  | nil => rfl
  | cons a t => rw [List.dropWhile_cons, if_neg (by simp [h a (by simp)])]

theorem takeWhile_append_stop (p : Char → Bool) (A B : List Char) (b : Char)
    (hA : ∀ c ∈ A, p c = true) (hb : p b = false) :
    (A ++ b :: B).takeWhile p = A := by
  induction A with
  | nil => simp [List.takeWhile_cons, hb]
  | cons a t ih =>
    rw [List.cons_append, List.takeWhile_cons, if_pos (hA a (by simp))]
    rw [ih (fun c hc => hA c (by simp [hc]))]

theorem dropWhile_append_stop (p : Char → Bool) (A B : List Char) (b : Char)
    (hA : ∀ c ∈ A, p c = true) (hb : p b = false) :
    (A ++ b :: B).dropWhile p = b :: B := by
  induction A with
  | nil => simp [List.dropWhile_cons, hb]
  | cons a t ih =>
    rw [List.cons_append, List.dropWhile_cons, if_pos (hA a (by simp))]
    exact ih (fun c hc => hA c (by simp [hc]))

theorem stripChars_no_space (l : List Char) (h : ∀ c ∈ l, isPySpace c = false) :
    stripChars l = l := by
  unfold stripChars
  rw [dropWhile_none _ _ h]
  rw [dropWhile_none _ _ (fun c hc => h c (List.mem_reverse.mp hc))]
  exact l.reverse_reverse

theorem splitOnCharAux_no_sep (sep : Char) (A : List Char) (h : ∀ c ∈ A, ¬ c = sep) :
    ∀ acc, splitOnCharAux sep A acc = [acc.reverse ++ A] := by
  induction A with
  | nil => intro acc; simp [splitOnCharAux]
  | cons a t ih =>
    intro acc
    unfold splitOnCharAux
    rw [if_neg (by simpa using h a (by simp))]
    rw [ih (fun c hc => h c (by simp [hc])) (a :: acc)]
    simp

theorem splitOnCharAux_cut (sep : Char) (A rest : List Char) (h : ∀ c ∈ A, ¬ c = sep) :
    ∀ acc, splitOnCharAux sep (A ++ sep :: rest) acc =
      (acc.reverse ++ A) :: splitOnCharAux sep rest [] := by
  induction A with
  | nil =>
    intro acc
    simp only [List.nil_append]
    unfold splitOnCharAux
    rw [if_pos rfl]
    simp
    cases rest <;> rfl
  | cons a t ih =>
    intro acc
    rw [List.cons_append]
    unfold splitOnCharAux
    rw [if_neg (by simpa using h a (by simp))]
    rw [ih (fun c hc => h c (by simp [hc])) (a :: acc)]
    simp
    cases rest <;> rfl

theorem splitOnChar_no_sep (sep : Char) (A : List Char) (h : ∀ c ∈ A, ¬ c = sep) :
    splitOnChar sep A = [A] := by
  unfold splitOnChar
  rw [splitOnCharAux_no_sep sep A h []]
  simp

theorem splitOnChar_two (sep : Char) (A B : List Char)
    (hA : ∀ c ∈ A, ¬ c = sep) (hB : ∀ c ∈ B, ¬ c = sep) :
    splitOnChar sep (A ++ sep :: B) = [A, B] := by
  unfold splitOnChar
  rw [splitOnCharAux_cut sep A B hA []]
  rw [splitOnCharAux_no_sep sep B hB []]
  simp

theorem splitOnChar_three (sep : Char) (A B C : List Char)
    (hA : ∀ c ∈ A, ¬ c = sep) (hB : ∀ c ∈ B, ¬ c = sep) (hC : ∀ c ∈ C, ¬ c = sep) :
    splitOnChar sep (A ++ sep :: (B ++ sep :: C)) = [A, B, C] := by
  unfold splitOnChar
  rw [splitOnCharAux_cut sep A _ hA []]
  rw [splitOnCharAux_cut sep B C hB []]
  rw [splitOnCharAux_no_sep sep C hC []]
  simp

theorem contains_true_of_mem (l : List Char) (c : Char) (h : c ∈ l) : l.contains c = true := by
  simpa [List.contains, List.elem_eq_mem] using h

theorem ne_of_contains_false (l : List Char) (c : Char) (h : l.contains c = false) :
    ∀ d ∈ l, ¬ d = c := by
  intro d hd he
  subst he
  rw [contains_true_of_mem l d hd] at h
  exact Bool.noConfusion h

/-!  Evaluation lemmas for the float model on digit strings.  -/

theorem splitSignQ_digit (l : List Char) (c : Char) (hc : c.isDigit = true) :
    splitSignQ (c :: l) = (1, c :: l) := by
  have h1 : ¬ c = '+' := isDigit_ne c '+' hc (by decide)
  have h2 : ¬ c = '-' := isDigit_ne c '-' hc (by decide)
  simp [splitSignQ, h1, h2]

theorem parseMantissa_digits (l : List Char) (h1 : l ≠ []) (h2 : ∀ c ∈ l, c.isDigit = true) :
    parseMantissa l = some ((natOfDigits l : ℚ), []) := by
  simp only [parseMantissa, takeWhile_all _ l h2, dropWhile_all _ l h2, if_neg h1]

theorem parseMantissa_digits_dot (A B : List Char) (hA1 : A ≠ [])
    (hA : ∀ c ∈ A, c.isDigit = true) (hB1 : B ≠ []) (hB : ∀ c ∈ B, c.isDigit = true) :
    parseMantissa (A ++ '.' :: B) =
      some ((natOfDigits A : ℚ) + (natOfDigits B : ℚ) / 10 ^ B.length, []) := by
  have ht := takeWhile_append_stop Char.isDigit A B '.' hA (by decide)
  have hd := dropWhile_append_stop Char.isDigit A B '.' hA (by decide)
  simp only [parseMantissa, ht, hd, if_true, takeWhile_all _ B hB, dropWhile_all _ B hB]
  rw [if_neg (by simp [hA1])]

theorem pyFloatL_digits (l : List Char) (h1 : l ≠ []) (h2 : ∀ c ∈ l, c.isDigit = true) :
    pyFloatL l = some ((natOfDigits l : ℚ)) := by
  have hs : stripChars l = l :=
    stripChars_no_space l (fun c hc => isDigit_not_space c (h2 c hc))
  obtain ⟨c, t, rfl⟩ : ∃ c t, l = c :: t := by
    cases l with
    | nil => exact absurd rfl h1
    | cons c t => exact ⟨c, t, rfl⟩
  simp only [pyFloatL, hs, splitSignQ_digit t c (h2 c (by simp)),
    parseMantissa_digits _ h1 h2, parseExp, if_pos rfl]
  norm_num [qpow10]

theorem pyFloatL_digits_dot (A B : List Char) (hA1 : A ≠ [])
    (hA : ∀ c ∈ A, c.isDigit = true) (hB1 : B ≠ []) (hB : ∀ c ∈ B, c.isDigit = true) :
    pyFloatL (A ++ '.' :: B) =
      some ((natOfDigits A : ℚ) + (natOfDigits B : ℚ) / 10 ^ B.length) := by
  have hsp : ∀ c ∈ A ++ '.' :: B, isPySpace c = false := by
    intro c hc
    rw [List.mem_append] at hc
    rcases hc with hc | hc
    · exact isDigit_not_space c (hA c hc)
    · rcases List.mem_cons.mp hc with hc | hc
      · subst hc; decide
      · exact isDigit_not_space c (hB c hc)
  have hs : stripChars (A ++ '.' :: B) = A ++ '.' :: B := stripChars_no_space _ hsp
  obtain ⟨c, t, he⟩ : ∃ c t, A = c :: t := by
    cases A with
    | nil => exact absurd rfl hA1
    | cons c t => exact ⟨c, t, rfl⟩
  have hsg : splitSignQ (A ++ '.' :: B) = (1, A ++ '.' :: B) := by
    rw [he]
    exact splitSignQ_digit _ c (hA c (by simp [he]))
  simp only [pyFloatL, hs, hsg, parseMantissa_digits_dot A B hA1 hA hB1 hB, parseExp, if_pos rfl]
  norm_num [qpow10]

/-!  Lemmas about the rounding model.  -/

theorem pyRound_intCast (n : ℤ) : pyRound (n : ℚ) = n := by
  unfold pyRound
  rw [Int.floor_intCast]
  norm_num

theorem pyRound_nonneg (q : ℚ) (h : 0 ≤ q) : 0 ≤ pyRound q := by
  have h0 : 0 ≤ ⌊q⌋ := Int.floor_nonneg.mpr h
  unfold pyRound
  dsimp only
  split_ifs <;> omega

theorem pyRound_div_thousand (r2 : ℤ) : pyRound ((r2 : ℚ) / 1000 * 1000) = r2 := by
  have he : ((r2 : ℚ) / 1000) * 1000 = (r2 : ℚ) := div_mul_cancel₀ _ (by norm_num)
  rw [he, pyRound_intCast]

/-!  The shape of a formatted timestamp, and parsing it back.  -/

theorem zeroPadTo_length_ge (w : ℕ) (l : List Char) : w ≤ (zeroPadTo w l).length := by
  unfold zeroPadTo
  simp
  omega

theorem zeroPadTo_six_split (L P : List Char) (hP : P.length = 3) :
    zeroPadTo 6 (L ++ '.' :: P) = zeroPadTo 2 L ++ '.' :: P := by
  unfold zeroPadTo
  rw [List.length_append, List.length_cons, hP]
  have h64 : 6 - (L.length + (3 + 1)) = 2 - L.length := by omega
  rw [h64, List.append_assoc]

theorem padNat_three_length (ms : ℕ) (hms : ms < 1000) : (padNat 3 ms).length = 3 :=
  padNat_length_eq 3 ms (by norm_num) (by norm_num; omega)

theorem formatFloat63_eval (R2 : ℤ) (h0 : 0 ≤ R2) :
    formatFloat63 ((R2 : ℚ) / 1000) =
      padNat 2 (R2.toNat / 1000) ++ '.' :: padNat 3 (R2.toNat % 1000) := by
  unfold formatFloat63
  rw [pyRound_div_thousand, if_neg (not_lt.mpr h0)]
  have hP : (padNat 3 (R2.toNat % 1000)).length = 3 :=
    padNat_three_length _ (Nat.mod_lt _ (by norm_num))
  show zeroPadTo 6 (natToStr (R2.toNat / 1000) ++ '.' :: padNat 3 (R2.toNat % 1000)) = _
  rw [zeroPadTo_six_split _ _ hP]
  rfl

theorem format_timestamp_parts (s : ℚ) (hs : 0 ≤ s) :
    ∃ h m sec ms : ℕ,
      pyRound (s * 1000) = ((h : ℤ) * 3600 + (m : ℤ) * 60 + (sec : ℤ)) * 1000 + (ms : ℤ) ∧
      m < 60 ∧ sec < 60 ∧ ms < 1000 ∧
      format_timestamp s =
        String.mk (padNat 2 h ++ ':' :: (padNat 2 m ++ ':' ::
          (padNat 2 sec ++ '.' :: padNat 3 ms))) := by
  have hM : 0 ≤ pyRound (s * 1000) := pyRound_nonneg _ (by positivity)
  set M := pyRound (s * 1000) with hMdef
  set H := Int.ediv M 3600000 with hHdef
  set R1 := Int.emod M 3600000 with hR1def
  set MN := Int.ediv R1 60000 with hMNdef
  set R2 := Int.emod R1 60000 with hR2def
  have hHnn : 0 ≤ H := Int.ediv_nonneg hM (by norm_num)
  have hR1nn : 0 ≤ R1 := Int.emod_nonneg M (by norm_num)
  have hR1lt : R1 < 3600000 := Int.emod_lt_of_pos M (by norm_num)
  have hMNnn : 0 ≤ MN := Int.ediv_nonneg hR1nn (by norm_num)
  have hR2nn : 0 ≤ R2 := Int.emod_nonneg R1 (by norm_num)
  have hR2lt : R2 < 60000 := Int.emod_lt_of_pos R1 (by norm_num)
  have id1 : 3600000 * H + R1 = M := Int.ediv_add_emod M 3600000
  have id2 : 60000 * MN + R2 = R1 := Int.ediv_add_emod R1 60000
  have hMNlt : MN < 60 := by omega
  have hR2nat : (R2.toNat : ℤ) = R2 := Int.toNat_of_nonneg hR2nn
  have hHnat : (H.toNat : ℤ) = H := Int.toNat_of_nonneg hHnn
  have hMNnat : (MN.toNat : ℤ) = MN := Int.toNat_of_nonneg hMNnn
  have hqr : R2.toNat = 1000 * (R2.toNat / 1000) + R2.toNat % 1000 := (Nat.div_add_mod _ _).symm
  have hrlt : R2.toNat % 1000 < 1000 := Nat.mod_lt _ (by norm_num)
  refine ⟨H.toNat, MN.toNat, R2.toNat / 1000, R2.toNat % 1000, ?_, ?_, ?_, ?_, ?_⟩
  · omega
  · omega
  · omega
  · exact hrlt
  · unfold format_timestamp
    dsimp only
    rw [← hMdef, ← hHdef, ← hR1def, ← hMNdef, ← hR2def]
    have e1 : padInt 2 H = padNat 2 H.toNat := by
      unfold padInt
      rw [if_neg (not_lt.mpr hHnn)]
    have e2 : padInt 2 MN = padNat 2 MN.toNat := by
      unfold padInt
      rw [if_neg (not_lt.mpr hMNnn)]
    rw [e1, e2, formatFloat63_eval R2 hR2nn]
    congr 1
    simp [List.append_assoc]

theorem parse_timestampL_format (hh mm sec ms : ℕ) (hms : ms < 1000) :
    parse_timestampL (padNat 2 hh ++ ':' :: (padNat 2 mm ++ ':' ::
        (padNat 2 sec ++ '.' :: padNat 3 ms))) =
      .ok ((hh : ℚ) * 3600 + (mm : ℚ) * 60 + ((sec : ℚ) + (ms : ℚ) / 1000)) := by
  set A := padNat 2 hh with hA
  set B := padNat 2 mm with hB
  set C := padNat 2 sec ++ '.' :: padNat 3 ms with hC
  set L := A ++ ':' :: (B ++ ':' :: C) with hL
  have hCs : ∀ c ∈ C, c.isDigit = true ∨ c = '.' := by
    intro c hc
    rw [hC, List.mem_append, List.mem_cons] at hc
    rcases hc with hc | hc | hc
    · exact Or.inl (padNat_isDigit 2 sec c hc)
    · exact Or.inr hc
    · exact Or.inl (padNat_isDigit 3 ms c hc)
  have hsp : ∀ c ∈ L, isPySpace c = false := by
    intro c hc
    rw [hL, List.mem_append, List.mem_cons, List.mem_append, List.mem_cons] at hc
    rcases hc with hc | hc | hc | hc | hc
    · exact isDigit_not_space c (padNat_isDigit 2 hh c hc)
    · subst hc; decide
    · exact isDigit_not_space c (padNat_isDigit 2 mm c hc)
    · subst hc; decide
    · rcases hCs c hc with h | h
      · exact isDigit_not_space c h
      · subst h; decide
  have hstrip : stripChars L = L := stripChars_no_space L hsp
  have hne : ¬ L = [] := by
    rw [hL]
    intro he
    have := congrArg List.length he
    simp at this
  have hmem : ':' ∈ L := by
    rw [hL, List.mem_append]
    exact Or.inr (by simp)
  have hct : L.contains ':' = true := contains_true_of_mem L ':' hmem
  have hAcol : ∀ c ∈ A, ¬ c = ':' := fun c hc =>
    isDigit_ne c ':' (padNat_isDigit 2 hh c hc) (by decide)
  have hBcol : ∀ c ∈ B, ¬ c = ':' := fun c hc =>
    isDigit_ne c ':' (padNat_isDigit 2 mm c hc) (by decide)
  have hCcol : ∀ c ∈ C, ¬ c = ':' := by
    intro c hc
    rcases hCs c hc with h | h
    · exact isDigit_ne c ':' h (by decide)
    · subst h; decide
  have hsplit : splitOnChar ':' L = [A, B, C] := by
    rw [hL]
    exact splitOnChar_three ':' A B C hAcol hBcol hCcol
  have f1 : pyFloatL A = some ((hh : ℚ)) := by
    rw [hA, pyFloatL_digits _ (padNat_ne_nil 2 hh) (padNat_isDigit 2 hh), natOfDigits_padNat]
  have f2 : pyFloatL B = some ((mm : ℚ)) := by
    rw [hB, pyFloatL_digits _ (padNat_ne_nil 2 mm) (padNat_isDigit 2 mm), natOfDigits_padNat]
  have f3 : pyFloatL C = some ((sec : ℚ) + (ms : ℚ) / 1000) := by
    rw [hC, pyFloatL_digits_dot _ _ (padNat_ne_nil 2 sec) (padNat_isDigit 2 sec)
      (padNat_ne_nil 3 ms) (padNat_isDigit 3 ms)]
    rw [natOfDigits_padNat, natOfDigits_padNat, padNat_three_length ms hms]
    norm_num
  simp only [parse_timestampL, hstrip, if_neg hne, hct, Bool.true_eq_false, if_false,
    hsplit, parse_timestampL.floatParts, f1, f2, f3]
  norm_num

/-!  Branch evaluation lemmas for `parse_timestamp`.  -/

theorem splitOnChar_nil (sep : Char) : splitOnChar sep [] = [[]] := rfl

theorem contains_of_split_big (sep : Char) (v : List Char) (parts : List (List Char))
    (hsplit : splitOnChar sep v = parts) (hlen : 2 ≤ parts.length) :
    v.contains sep = true := by
  cases hc : v.contains sep with
  | true => rfl
  | false =>
    rw [splitOnChar_no_sep sep v (ne_of_contains_false v sep hc)] at hsplit
    rw [← hsplit] at hlen
    simp at hlen

theorem split_ne_nil (sep : Char) (v : List Char) (parts : List (List Char))
    (hsplit : splitOnChar sep v = parts) (hlen : 2 ≤ parts.length) : ¬ v = [] := by
  intro he
  rw [he, splitOnChar_nil] at hsplit
  rw [← hsplit] at hlen
  simp at hlen

theorem parse_timestampL_noColon (l : List Char) (q : ℚ) (hne : ¬ stripChars l = [])
    (hc : (stripChars l).contains ':' = false) (hq : pyFloatL (stripChars l) = some q) :
    parse_timestampL l = .ok q := by
  simp only [parse_timestampL, if_neg hne, hc, if_true, hq]

theorem parse_timestampL_two (l a b : List Char) (m s : ℚ)
    (hsplit : splitOnChar ':' (stripChars l) = [a, b])
    (ha : pyFloatL a = some m) (hb : pyFloatL b = some s) :
    parse_timestampL l = .ok (m * 60 + s) := by
  have hne := split_ne_nil ':' (stripChars l) _ hsplit (by norm_num)
  have hct := contains_of_split_big ':' (stripChars l) _ hsplit (by norm_num)
  simp only [parse_timestampL, if_neg hne, hct, Bool.true_eq_false, if_false, hsplit,
    List.length_cons, List.length_nil, parse_timestampL.floatParts, ha, hb]
  norm_num

theorem parse_timestampL_three (l a b c : List Char) (h m s : ℚ)
    (hsplit : splitOnChar ':' (stripChars l) = [a, b, c])
    (ha : pyFloatL a = some h) (hb : pyFloatL b = some m) (hc : pyFloatL c = some s) :
    parse_timestampL l = .ok (h * 3600 + m * 60 + s) := by
  have hne := split_ne_nil ':' (stripChars l) _ hsplit (by norm_num)
  have hct := contains_of_split_big ':' (stripChars l) _ hsplit (by norm_num)
  simp only [parse_timestampL, if_neg hne, hct, Bool.true_eq_false, if_false, hsplit,
    List.length_cons, List.length_nil, parse_timestampL.floatParts, ha, hb, hc]
  norm_num

theorem parse_timestampL_two_err1 (l a b : List Char)
    (hsplit : splitOnChar ':' (stripChars l) = [a, b]) (ha : pyFloatL a = none) :
    parse_timestampL l = .error ("could not convert string to float: '" ++ String.mk a ++ "'") := by
  have hne := split_ne_nil ':' (stripChars l) _ hsplit (by norm_num)
  have hct := contains_of_split_big ':' (stripChars l) _ hsplit (by norm_num)
  simp only [parse_timestampL, if_neg hne, hct, Bool.true_eq_false, if_false, hsplit,
    List.length_cons, List.length_nil, parse_timestampL.floatParts, ha]
  norm_num

theorem parse_timestampL_two_err2 (l a b : List Char) (m : ℚ)
    (hsplit : splitOnChar ':' (stripChars l) = [a, b])
    (ha : pyFloatL a = some m) (hb : pyFloatL b = none) :
    parse_timestampL l = .error ("could not convert string to float: '" ++ String.mk b ++ "'") := by
  have hne := split_ne_nil ':' (stripChars l) _ hsplit (by norm_num)
  have hct := contains_of_split_big ':' (stripChars l) _ hsplit (by norm_num)
  simp only [parse_timestampL, if_neg hne, hct, Bool.true_eq_false, if_false, hsplit,
    List.length_cons, List.length_nil, parse_timestampL.floatParts, ha, hb]
  norm_num

theorem parse_timestampL_three_err1 (l a b c : List Char)
    (hsplit : splitOnChar ':' (stripChars l) = [a, b, c]) (ha : pyFloatL a = none) :
    parse_timestampL l = .error ("could not convert string to float: '" ++ String.mk a ++ "'") := by
  have hne := split_ne_nil ':' (stripChars l) _ hsplit (by norm_num)
  have hct := contains_of_split_big ':' (stripChars l) _ hsplit (by norm_num)
  simp only [parse_timestampL, if_neg hne, hct, Bool.true_eq_false, if_false, hsplit,
    List.length_cons, List.length_nil, parse_timestampL.floatParts, ha]
  norm_num

theorem parse_timestampL_three_err2 (l a b c : List Char) (h : ℚ)
    (hsplit : splitOnChar ':' (stripChars l) = [a, b, c])
    (ha : pyFloatL a = some h) (hb : pyFloatL b = none) :
    parse_timestampL l = .error ("could not convert string to float: '" ++ String.mk b ++ "'") := by
  have hne := split_ne_nil ':' (stripChars l) _ hsplit (by norm_num)
  have hct := contains_of_split_big ':' (stripChars l) _ hsplit (by norm_num)
  simp only [parse_timestampL, if_neg hne, hct, Bool.true_eq_false, if_false, hsplit,
    List.length_cons, List.length_nil, parse_timestampL.floatParts, ha, hb]
  norm_num

theorem parse_timestampL_three_err3 (l a b c : List Char) (h m : ℚ)
    (hsplit : splitOnChar ':' (stripChars l) = [a, b, c])
    (ha : pyFloatL a = some h) (hb : pyFloatL b = some m) (hc : pyFloatL c = none) :
    parse_timestampL l = .error ("could not convert string to float: '" ++ String.mk c ++ "'") := by
  have hne := split_ne_nil ':' (stripChars l) _ hsplit (by norm_num)
  have hct := contains_of_split_big ':' (stripChars l) _ hsplit (by norm_num)
  simp only [parse_timestampL, if_neg hne, hct, Bool.true_eq_false, if_false, hsplit,
    List.length_cons, List.length_nil, parse_timestampL.floatParts, ha, hb, hc]
  norm_num

/-!  Classification of the parser's error messages.  -/

theorem head?_append_str (s t : String) (c : Char) (h : s.data.head? = some c) :
    (s ++ t).data.head? = some c := by
  rw [String.data_append]
  cases hd : s.data with
  | nil => rw [hd] at h; simp at h
  | cons a r =>
    rw [hd] at h
    simp at h
    simp [h]

theorem floatParts_error (ps : List (List Char)) (e : String)
    (h : parse_timestampL.floatParts ps = .error e) :
    ∃ p, e = "could not convert string to float: '" ++ String.mk p ++ "'" := by
  induction ps with
  | nil => simp [parse_timestampL.floatParts] at h
  | cons p rest ih =>
    simp only [parse_timestampL.floatParts] at h
    cases hp : pyFloatL p with
    | none =>
      rw [hp] at h
      refine ⟨p, ?_⟩
      injection h with h
      exact h.symm
    | some q =>
      rw [hp] at h
      cases hr : parse_timestampL.floatParts rest with
      | error e2 =>
        rw [hr] at h
        injection h with h
        subst h
        exact ih hr
      | ok qs =>
        rw [hr] at h
        simp at h

theorem parse_timestampL_error_head (l : List Char) (msg : String)
    (h : parse_timestampL l = .error msg) :
    msg.data.head? = some 'e' ∨ msg.data.head? = some 'I' ∨ msg.data.head? = some 'c' := by
  by_cases h1 : stripChars l = []
  · simp only [parse_timestampL, if_pos h1] at h
    injection h with h
    subst h
    exact Or.inl rfl
  · by_cases h2 : (stripChars l).contains ':' = false
    · simp only [parse_timestampL, if_neg h1, h2, if_true] at h
      cases hq : pyFloatL (stripChars l) with
      | some q => rw [hq] at h; simp at h
      | none =>
        rw [hq] at h
        injection h with h
        subst h
        exact Or.inr (Or.inl (head?_append_str _ _ 'I' rfl))
    · have h2' : (stripChars l).contains ':' = true := by
        cases hcc : (stripChars l).contains ':' with
        | true => rfl
        | false => exact absurd hcc h2
      simp only [parse_timestampL, if_neg h1, h2', Bool.true_eq_false, if_false] at h
      by_cases h3 : 3 < (splitOnChar ':' (stripChars l)).length
      · rw [if_pos h3] at h
        injection h with h
        subst h
        exact Or.inr (Or.inl (head?_append_str _ _ 'I' rfl))
      · rw [if_neg h3] at h
        cases hf : parse_timestampL.floatParts (splitOnChar ':' (stripChars l)) with
        | error e =>
          rw [hf] at h
          injection h with h
          subst h
          obtain ⟨p, hp⟩ := floatParts_error _ _ hf
          rw [hp]
          exact Or.inr (Or.inr (head?_append_str _ _ 'c' rfl))
        | ok qs =>
          rw [hf] at h
          match qs with
          | [x, y, z] => simp at h
          | [x, y] => simp at h
          | [x] => simp at h
          | [] =>
            simp only at h
            injection h with h
            subst h
            exact Or.inr (Or.inl rfl)
          | x :: y :: z :: w :: r =>
            simp only at h
            injection h with h
            subst h
            exact Or.inr (Or.inl rfl)

/-!  Branch evaluation lemmas for the trim orchestrator.  -/

theorem cutVideoPlan_neg (fp : String) (inp : PyPath) (st en : String) (out : Option PyPath)
    (ss es : ℚ) (hst : parse_timestamp st = .ok ss) (hen : parse_timestamp en = .ok es)
    (h0 : ss < 0 ∨ es < 0) :
    cutVideoPlan (some fp) inp st en out =
      .error (.valueError "Los tiempos deben ser mayores o iguales a 0.") := by
  simp only [cutVideoPlan, ensure_ffmpeg_available, hst, hen, if_pos h0]

theorem cutVideoPlan_order (fp : String) (inp : PyPath) (st en : String) (out : Option PyPath)
    (ss es : ℚ) (hst : parse_timestamp st = .ok ss) (hen : parse_timestamp en = .ok es)
    (h0 : ¬ (ss < 0 ∨ es < 0)) (hle : es ≤ ss) :
    cutVideoPlan (some fp) inp st en out =
      .error (.valueError "El tiempo final debe ser mayor que el inicial.") := by
  simp only [cutVideoPlan, ensure_ffmpeg_available, hst, hen, if_neg h0, if_pos hle]

theorem cutVideoPlan_ok_some (fp : String) (inp : PyPath) (st en : String) (o : PyPath)
    (ss es : ℚ) (hst : parse_timestamp st = .ok ss) (hen : parse_timestamp en = .ok es)
    (h0 : ¬ (ss < 0 ∨ es < 0)) (hle : ¬ es ≤ ss) :
    cutVideoPlan (some fp) inp st en (some o) =
      .ok (build_command fp inp o (format_timestamp ss) (format_timestamp es), o) := by
  simp only [cutVideoPlan, ensure_ffmpeg_available, hst, hen, if_neg h0, if_neg hle]

theorem cutVideoPlan_ok_none (fp : String) (inp : PyPath) (st en : String)
    (ss es : ℚ) (hst : parse_timestamp st = .ok ss) (hen : parse_timestamp en = .ok es)
    (h0 : ¬ (ss < 0 ∨ es < 0)) (hle : ¬ es ≤ ss) :
    cutVideoPlan (some fp) inp st en none =
      .ok (build_command fp inp
            (build_output_path inp
              (String.mk (intToStr (pyTrunc ss)) ++ "s_" ++
               String.mk (intToStr (pyTrunc es)) ++ "s"))
            (format_timestamp ss) (format_timestamp es),
          build_output_path inp
            (String.mk (intToStr (pyTrunc ss)) ++ "s_" ++
             String.mk (intToStr (pyTrunc es)) ++ "s")) := by
  simp only [cutVideoPlan, ensure_ffmpeg_available, hst, hen, if_neg h0, if_neg hle]

theorem cut_video_of_plan_error (located : Option String) (runOk : Bool) (inp : PyPath)
    (st en : String) (out : Option PyPath) (e : PyErr)
    (h : cutVideoPlan located inp st en out = .error e) :
    cut_video located runOk inp st en out = .error e := by
  simp only [cut_video, h]

theorem cutVideoPlan_some_out (fp : String) (inp : PyPath) (st en : String) (o : PyPath)
    (cmd : List String) (out : PyPath)
    (h : cutVideoPlan (some fp) inp st en (some o) = .ok (cmd, out)) : out = o := by
  simp only [cutVideoPlan, ensure_ffmpeg_available] at h
  cases hst : parse_timestamp st with
  | error m => rw [hst] at h; simp at h
  | ok ss =>
    rw [hst] at h
    cases hen : parse_timestamp en with
    | error m => rw [hen] at h; simp at h
    | ok es =>
      rw [hen] at h
      dsimp only at h
      by_cases h0 : ss < 0 ∨ es < 0
      · rw [if_pos h0] at h; simp at h
      · rw [if_neg h0] at h
        by_cases hle : es ≤ ss
        · rw [if_pos hle] at h; simp at h
        · rw [if_neg hle] at h
          simp only [Except.ok.injEq, Prod.mk.injEq] at h
          exact h.2.symm

/-!  The claims.  -/

theorem parse_timestamp_mk (l : List Char) : parse_timestamp (String.mk l) = parse_timestampL l :=
  rfl

/-- C1: for every non-negative rational number of seconds `s`,
`parse_timestamp (format_timestamp s)` recovers `s` rounded to the nearest
millisecond, that is `round(s*1000)/1000` with Python's round-half-to-even. -/
theorem claim_parse_format_roundtrip (s : ℚ) (hs : 0 ≤ s) :
    parse_timestamp (format_timestamp s) = .ok ((pyRound (s * 1000) : ℚ) / 1000) := by
  obtain ⟨h, m, sec, ms, hdec, hm, hsec, hms, hfmt⟩ := format_timestamp_parts s hs
  rw [hfmt, parse_timestamp_mk, parse_timestampL_format h m sec ms hms]
  congr 1
  rw [hdec]
  push_cast
  field_simp
  ring

/-- Witness for C1 at `s = 181/2` (90.5 seconds). -/
theorem claim_parse_format_roundtrip_witness :
    (0 : ℚ) ≤ 181 / 2 ∧
      parse_timestamp (format_timestamp (181 / 2)) =
        .ok ((pyRound ((181 / 2 : ℚ) * 1000) : ℚ) / 1000) :=
  ⟨by norm_num, claim_parse_format_roundtrip (181 / 2) (by norm_num)⟩

/-- C2 counterexample: `parse_timestamp "1:-30"` does not fail with a format
error; it returns the seconds value `30.0` (the code never checks sub-field
signs), refuting the claim at the input `"1:-30"`. -/
theorem claim_negative_subfield_counterexample : parse_timestamp "1:-30" = .ok 30 := by
  decide

/-- C2 amended: in a segmented timestamp of two or three colon-separated
fields, a sub-field that fails Python's `float` conversion propagates a
format error (the `ValueError` message of the first failed conversion), but
a negative sub-field in any position is accepted and contributes its
negative value to the weighted sum, e.g. `parse_timestamp "1:-30" = 30.0`,
`parse_timestamp "-1:30" = -30.0` and `parse_timestamp "1:-30:5" = 1805.0`. -/
theorem claim_negative_subfield_amended :
    (∀ (v : String) (a b : List Char) (m s : ℚ),
      splitOnChar ':' (stripChars v.toList) = [a, b] →
      pyFloatL a = some m → pyFloatL b = some s → (m < 0 ∨ s < 0) →
      parse_timestamp v = .ok (m * 60 + s)) ∧
    (∀ (v : String) (a b c : List Char) (h m s : ℚ),
      splitOnChar ':' (stripChars v.toList) = [a, b, c] →
      pyFloatL a = some h → pyFloatL b = some m → pyFloatL c = some s →
      (h < 0 ∨ m < 0 ∨ s < 0) →
      parse_timestamp v = .ok (h * 3600 + m * 60 + s)) ∧
    (∀ (v : String) (a b : List Char),
      splitOnChar ':' (stripChars v.toList) = [a, b] → pyFloatL a = none →
      parse_timestamp v =
        .error ("could not convert string to float: '" ++ String.mk a ++ "'")) ∧
    (∀ (v : String) (a b : List Char) (m : ℚ),
      splitOnChar ':' (stripChars v.toList) = [a, b] →
      pyFloatL a = some m → pyFloatL b = none →
      parse_timestamp v =
        .error ("could not convert string to float: '" ++ String.mk b ++ "'")) ∧
    (∀ (v : String) (a b c : List Char),
      splitOnChar ':' (stripChars v.toList) = [a, b, c] → pyFloatL a = none →
      parse_timestamp v =
        .error ("could not convert string to float: '" ++ String.mk a ++ "'")) ∧
    (∀ (v : String) (a b c : List Char) (h : ℚ),
      splitOnChar ':' (stripChars v.toList) = [a, b, c] →
      pyFloatL a = some h → pyFloatL b = none →
      parse_timestamp v =
        .error ("could not convert string to float: '" ++ String.mk b ++ "'")) ∧
    (∀ (v : String) (a b c : List Char) (h m : ℚ),
      splitOnChar ':' (stripChars v.toList) = [a, b, c] →
      pyFloatL a = some h → pyFloatL b = some m → pyFloatL c = none →
      parse_timestamp v =
        .error ("could not convert string to float: '" ++ String.mk c ++ "'")) := by
  refine ⟨?_, ?_, ?_, ?_, ?_, ?_, ?_⟩
  · intro v a b m s h1 h2 h3 _hneg
    exact parse_timestampL_two v.toList a b m s h1 h2 h3
  · intro v a b c h m s h1 h2 h3 h4 _hneg
    exact parse_timestampL_three v.toList a b c h m s h1 h2 h3 h4
  · intro v a b h1 h2
    exact parse_timestampL_two_err1 v.toList a b h1 h2
  · intro v a b m h1 h2 h3
    exact parse_timestampL_two_err2 v.toList a b m h1 h2 h3
  · intro v a b c h1 h2
    exact parse_timestampL_three_err1 v.toList a b c h1 h2
  · intro v a b c h h1 h2 h3
    exact parse_timestampL_three_err2 v.toList a b c h h1 h2 h3
  · intro v a b c h m h1 h2 h3 h4
    exact parse_timestampL_three_err3 v.toList a b c h m h1 h2 h3 h4

/-- Witness for the amended C2 at `"1:-30"` (negative second sub-field),
`"-1:30"` (negative first sub-field), `"1:-30:5"` (negative middle sub-field
of three) and `"1:x:3"` (non-numeric middle sub-field of three). -/
theorem claim_negative_subfield_amended_witness :
    (splitOnChar ':' (stripChars ("1:-30" : String).toList) = [['1'], ['-', '3', '0']] ∧
      (-30 : ℚ) < 0 ∧ parse_timestamp "1:-30" = .ok (1 * 60 + -30)) ∧
    (splitOnChar ':' (stripChars ("-1:30" : String).toList) = [['-', '1'], ['3', '0']] ∧
      (-1 : ℚ) < 0 ∧ parse_timestamp "-1:30" = .ok (-1 * 60 + 30)) ∧
    (splitOnChar ':' (stripChars ("1:-30:5" : String).toList) =
        [['1'], ['-', '3', '0'], ['5']] ∧
      parse_timestamp "1:-30:5" = .ok (1 * 3600 + -30 * 60 + 5)) ∧
    (splitOnChar ':' (stripChars ("1:x:3" : String).toList) = [['1'], ['x'], ['3']] ∧
      parse_timestamp "1:x:3" =
        .error ("could not convert string to float: '" ++ String.mk ['x'] ++ "'")) :=
  ⟨⟨by decide, by norm_num,
    claim_negative_subfield_amended.1 "1:-30" ['1'] ['-', '3', '0'] 1 (-30)
      (by decide) (by decide) (by decide) (Or.inr (by norm_num))⟩,
   ⟨by decide, by norm_num,
    claim_negative_subfield_amended.1 "-1:30" ['-', '1'] ['3', '0'] (-1) 30
      (by decide) (by decide) (by decide) (Or.inl (by norm_num))⟩,
   ⟨by decide,
    claim_negative_subfield_amended.2.1 "1:-30:5" ['1'] ['-', '3', '0'] ['5'] 1 (-30) 5
      (by decide) (by decide) (by decide) (by decide) (Or.inr (Or.inl (by norm_num)))⟩,
   ⟨by decide,
    claim_negative_subfield_amended.2.2.2.2.2.1 "1:x:3" ['1'] ['x'] ['3'] 1
      (by decide) (by decide) (by decide)⟩⟩

/-- C3: with the tool located and both timestamps parsed, `cut_video` raises
`ValueError` with the dedicated Spanish message when a value is negative or
when the end is not after the start; these two messages are never produced by
`parse_timestamp`, so the validation failure is distinguishable from every
format error; in particular start `"10"`/end `"5"` and start `"-1"`/end `"5"`
fail this way. -/
theorem claim_validation_errors :
    (∀ (fp : String) (runOk : Bool) (inp : PyPath) (st en : String)
        (out : Option PyPath) (ss es : ℚ),
      parse_timestamp st = .ok ss → parse_timestamp en = .ok es →
      ((ss < 0 ∨ es < 0) → cut_video (some fp) runOk inp st en out =
        .error (.valueError "Los tiempos deben ser mayores o iguales a 0.")) ∧
      (0 ≤ ss → 0 ≤ es → es ≤ ss → cut_video (some fp) runOk inp st en out =
        .error (.valueError "El tiempo final debe ser mayor que el inicial."))) ∧
    (∀ v : String,
      parse_timestamp v ≠ .error "Los tiempos deben ser mayores o iguales a 0." ∧
      parse_timestamp v ≠ .error "El tiempo final debe ser mayor que el inicial.") ∧
    cut_video (some "ffmpeg") true ⟨[], "movie.mp4"⟩ "10" "5" none =
      .error (.valueError "El tiempo final debe ser mayor que el inicial.") ∧
    cut_video (some "ffmpeg") true ⟨[], "movie.mp4"⟩ "-1" "5" none =
      .error (.valueError "Los tiempos deben ser mayores o iguales a 0.") := by
  refine ⟨?_, ?_, by decide, by decide⟩
  · intro fp runOk inp st en out ss es hst hen
    constructor
    · intro h0
      exact cut_video_of_plan_error _ _ _ _ _ _ _
        (cutVideoPlan_neg fp inp st en out ss es hst hen h0)
    · intro hs0 he0 hle
      have h0 : ¬ (ss < 0 ∨ es < 0) := by
        simp only [not_or, not_lt]
        exact ⟨hs0, he0⟩
      exact cut_video_of_plan_error _ _ _ _ _ _ _
        (cutVideoPlan_order fp inp st en out ss es hst hen h0 hle)
  · intro v
    constructor
    · intro hcon
      rcases parse_timestampL_error_head v.toList _ hcon with h | h | h <;>
        exact absurd h (by decide)
    · intro hcon
      rcases parse_timestampL_error_head v.toList _ hcon with h | h | h <;>
        exact absurd h (by decide)

/-- Witness for C3 at start `"10"`, end `"5"` (with the universally
quantified part instantiated at the same inputs). -/
theorem claim_validation_errors_witness :
    parse_timestamp "10" = .ok 10 ∧ parse_timestamp "5" = .ok 5 ∧
    cut_video (some "ffmpeg") true ⟨[], "movie.mp4"⟩ "10" "5" none =
      .error (.valueError "El tiempo final debe ser mayor que el inicial.") :=
  ⟨by decide, by decide,
    (claim_validation_errors.1 "ffmpeg" true ⟨[], "movie.mp4"⟩ "10" "5" none 10 5
      (by decide) (by decide)).2 (by norm_num) (by norm_num) (by norm_num)⟩

/-- C4: when the external tool cannot be located, `cut_video` fails with the
tool-not-found `RuntimeError` for every start/end string (so before any
parsing can fail), and the message ends with the ffmpeg download link. -/
theorem claim_ffmpeg_missing :
    (∀ (runOk : Bool) (inp : PyPath) (st en : String) (out : Option PyPath),
      cut_video none runOk inp st en out = .error (.runtimeError ffmpegNotFoundMsg)) ∧
    ∃ pre : String, ffmpegNotFoundMsg = pre ++ "https://ffmpeg.org/download.html" := by
  constructor
  · intro runOk inp st en out
    rfl
  · exact ⟨"No se encontró ffmpeg. Coloca ffmpeg junto al ejecutable o " ++
      "instálalo y añádelo al PATH. Descargas: ", by decide⟩

/-- C5: whenever the tool is located, both timestamps parse, both are
non-negative and the end is after the start, the argument vector handed to
the child process is exactly `(ffmpeg, -hide_banner, -loglevel, error, -y,
-ss, formatted start, -to, formatted end, -i, input, -c, copy, output)`. -/
theorem claim_command_vector (fp : String) (inp : PyPath) (st en : String)
    (out : Option PyPath) (ss es : ℚ)
    (hst : parse_timestamp st = .ok ss) (hen : parse_timestamp en = .ok es)
    (hs0 : 0 ≤ ss) (he0 : 0 ≤ es) (hlt : ss < es) :
    ∃ o : PyPath, cutVideoPlan (some fp) inp st en out =
      .ok ([fp, "-hide_banner", "-loglevel", "error", "-y",
            "-ss", format_timestamp ss, "-to", format_timestamp es,
            "-i", pathStr inp, "-c", "copy", pathStr o], o) := by
  have h0 : ¬ (ss < 0 ∨ es < 0) := by
    simp only [not_or, not_lt]
    exact ⟨hs0, he0⟩
  have hle : ¬ es ≤ ss := not_le.mpr hlt
  cases out with
  | some o => exact ⟨o, cutVideoPlan_ok_some fp inp st en o ss es hst hen h0 hle⟩
  | none => exact ⟨_, cutVideoPlan_ok_none fp inp st en ss es hst hen h0 hle⟩

/-- Witness for C5 at start `"1"`, end `"2"`, input `movie.mp4`. -/
theorem claim_command_vector_witness :
    parse_timestamp "1" = .ok 1 ∧ parse_timestamp "2" = .ok 2 ∧
    ∃ o : PyPath, cutVideoPlan (some "ffmpeg") ⟨[], "movie.mp4"⟩ "1" "2" none =
      .ok (["ffmpeg", "-hide_banner", "-loglevel", "error", "-y",
            "-ss", format_timestamp 1, "-to", format_timestamp 2,
            "-i", pathStr ⟨[], "movie.mp4"⟩, "-c", "copy", pathStr o], o) :=
  ⟨by decide, by decide,
    claim_command_vector "ffmpeg" ⟨[], "movie.mp4"⟩ "1" "2" none 1 2
      (by decide) (by decide) (by norm_num) (by norm_num) (by norm_num)⟩

/-- C6: `parse_timestamp` semantics: a colon-free string is one float of
seconds; two fields give `minutes*60 + seconds`; three fields give
`hours*3600 + minutes*60 + seconds`; in particular `"90"`, `"1:30"` and
`"0:01:30"` all parse to 90 and `"1:30.5"` to 90.5. -/
theorem claim_parse_value_semantics :
    (∀ (v : String) (q : ℚ), ¬ stripChars v.toList = [] →
      (stripChars v.toList).contains ':' = false →
      pyFloatL (stripChars v.toList) = some q → parse_timestamp v = .ok q) ∧
    (∀ (v : String) (a b : List Char) (m s : ℚ),
      splitOnChar ':' (stripChars v.toList) = [a, b] →
      pyFloatL a = some m → pyFloatL b = some s →
      parse_timestamp v = .ok (m * 60 + s)) ∧
    (∀ (v : String) (a b c : List Char) (h m s : ℚ),
      splitOnChar ':' (stripChars v.toList) = [a, b, c] →
      pyFloatL a = some h → pyFloatL b = some m → pyFloatL c = some s →
      parse_timestamp v = .ok (h * 3600 + m * 60 + s)) ∧
    parse_timestamp "90" = .ok 90 ∧ parse_timestamp "1:30" = .ok 90 ∧
    parse_timestamp "0:01:30" = .ok 90 ∧ parse_timestamp "1:30.5" = .ok (181 / 2) := by
  refine ⟨?_, ?_, ?_, by decide, by decide, by decide, by decide⟩
  · intro v q h1 h2 h3
    exact parse_timestampL_noColon v.toList q h1 h2 h3
  · intro v a b m s h1 h2 h3
    exact parse_timestampL_two v.toList a b m s h1 h2 h3
  · intro v a b c h m s h1 h2 h3 h4
    exact parse_timestampL_three v.toList a b c h m s h1 h2 h3 h4

/-- Witness for C6's two-field case at `"1:30"`. -/
theorem claim_parse_value_semantics_witness :
    splitOnChar ':' (stripChars ("1:30" : String).toList) = [['1'], ['3', '0']] ∧
    parse_timestamp "1:30" = .ok (1 * 60 + 30) :=
  ⟨by decide,
    claim_parse_value_semantics.2.1 "1:30" ['1'] ['3', '0'] 1 30
      (by decide) (by decide) (by decide)⟩

/-- C7: for every non-negative seconds value, the formatted timestamp is the
rounded milliseconds decomposed into hours, minutes, seconds and milliseconds
rendered as `HH:MM:SS.mmm`: an at-least-two-digit zero-padded hours field, a
two-digit minutes field and a six-character seconds field with three decimal
places; in particular `format_timestamp 90 = "00:01:30.000"`. -/
theorem claim_format_fixed_width :
    (∀ s : ℚ, 0 ≤ s → ∃ h m sec ms : ℕ,
      pyRound (s * 1000) = ((h : ℤ) * 3600 + (m : ℤ) * 60 + (sec : ℤ)) * 1000 + (ms : ℤ) ∧
      m < 60 ∧ sec < 60 ∧ ms < 1000 ∧
      format_timestamp s = String.mk (padNat 2 h ++ ':' :: (padNat 2 m ++ ':' ::
        (padNat 2 sec ++ '.' :: padNat 3 ms))) ∧
      2 ≤ (padNat 2 h).length ∧ (padNat 2 m).length = 2 ∧
      (padNat 2 sec ++ '.' :: padNat 3 ms).length = 6) ∧
    format_timestamp 90 = "00:01:30.000" := by
  constructor
  · intro s hs
    obtain ⟨h, m, sec, ms, hdec, hm, hsec, hms, hfmt⟩ := format_timestamp_parts s hs
    refine ⟨h, m, sec, ms, hdec, hm, hsec, hms, hfmt, zeroPadTo_length_ge 2 _, ?_, ?_⟩
    · exact padNat_length_eq 2 m (by norm_num) (by norm_num; omega)
    · rw [List.length_append, List.length_cons, padNat_three_length ms hms,
        padNat_length_eq 2 sec (by norm_num) (by norm_num; omega)]
  · decide

/-- Witness for C7 at `s = 90`. -/
theorem claim_format_fixed_width_witness :
    (0 : ℚ) ≤ 90 ∧ (∃ h m sec ms : ℕ,
      pyRound ((90 : ℚ) * 1000) = ((h : ℤ) * 3600 + (m : ℤ) * 60 + (sec : ℤ)) * 1000 + (ms : ℤ) ∧
      m < 60 ∧ sec < 60 ∧ ms < 1000 ∧
      format_timestamp 90 = String.mk (padNat 2 h ++ ':' :: (padNat 2 m ++ ':' ::
        (padNat 2 sec ++ '.' :: padNat 3 ms))) ∧
      2 ≤ (padNat 2 h).length ∧ (padNat 2 m).length = 2 ∧
      (padNat 2 sec ++ '.' :: padNat 3 ms).length = 6) :=
  ⟨by norm_num, claim_format_fixed_width.1 90 (by norm_num)⟩

/-- C8: an explicit output path is returned verbatim by a successful
`cut_video` whatever the timestamps are; without one the derived output is a
sibling of the input named `stem_<int(start)>s_<int(end)>s<suffix>` with
truncated integer seconds; in particular `movie.mp4` with start 10 and end 20
yields `movie_10s_20s.mp4`. -/
theorem claim_output_path :
    (∀ (fp : String) (runOk : Bool) (inp : PyPath) (st en : String) (o out : PyPath),
      cut_video (some fp) runOk inp st en (some o) = .ok out → out = o) ∧
    (∀ (fp : String) (inp : PyPath) (st en : String) (cmd : List String)
        (out : PyPath) (ss es : ℚ),
      parse_timestamp st = .ok ss → parse_timestamp en = .ok es →
      cutVideoPlan (some fp) inp st en none = .ok (cmd, out) →
      out.parent = inp.parent ∧
      out.name = inp.stem ++ "_" ++
        (String.mk (intToStr (pyTrunc ss)) ++ "s_" ++
         String.mk (intToStr (pyTrunc es)) ++ "s") ++ inp.suffixStr) ∧
    (∃ cmd : List String,
      cutVideoPlan (some "ffmpeg") ⟨["d"], "movie.mp4"⟩ "10" "20" none =
        .ok (cmd, ⟨["d"], "movie_10s_20s.mp4"⟩)) := by
  refine ⟨?_, ?_, ?_⟩
  · intro fp runOk inp st en o out h
    cases hp : cutVideoPlan (some fp) inp st en (some o) with
    | error e =>
      simp only [cut_video, hp] at h
      simp at h
    | ok p =>
      obtain ⟨cmd, out2⟩ := p
      simp only [cut_video, hp] at h
      cases runOk with
      | false => simp at h
      | true =>
        simp only [if_true] at h
        injection h with h
        rw [← h]
        exact cutVideoPlan_some_out fp inp st en o cmd out2 hp
  · intro fp inp st en cmd out ss es hst hen hp
    by_cases h0 : ss < 0 ∨ es < 0
    · rw [cutVideoPlan_neg fp inp st en none ss es hst hen h0] at hp
      simp at hp
    · by_cases hle : es ≤ ss
      · rw [cutVideoPlan_order fp inp st en none ss es hst hen h0 hle] at hp
        simp at hp
      · rw [cutVideoPlan_ok_none fp inp st en ss es hst hen h0 hle] at hp
        simp only [Except.ok.injEq, Prod.mk.injEq] at hp
        rw [← hp.2]
        exact ⟨rfl, rfl⟩
  · exact ⟨build_command "ffmpeg" ⟨["d"], "movie.mp4"⟩ ⟨["d"], "movie_10s_20s.mp4"⟩
      (format_timestamp 10) (format_timestamp 20), by decide⟩

/-- Witness for C8's derived-path case at start `"10"`, end `"20"`. -/
theorem claim_output_path_witness :
    parse_timestamp "10" = .ok 10 ∧ parse_timestamp "20" = .ok 20 ∧
    (cutVideoPlan (some "ffmpeg") ⟨["d"], "movie.mp4"⟩ "10" "20" none =
      .ok (build_command "ffmpeg" ⟨["d"], "movie.mp4"⟩ ⟨["d"], "movie_10s_20s.mp4"⟩
            (format_timestamp 10) (format_timestamp 20), ⟨["d"], "movie_10s_20s.mp4"⟩)) ∧
    (⟨["d"], "movie_10s_20s.mp4"⟩ : PyPath).parent = (⟨["d"], "movie.mp4"⟩ : PyPath).parent ∧
    (⟨["d"], "movie_10s_20s.mp4"⟩ : PyPath).name =
      (⟨["d"], "movie.mp4"⟩ : PyPath).stem ++ "_" ++
        (String.mk (intToStr (pyTrunc (10 : ℚ))) ++ "s_" ++
         String.mk (intToStr (pyTrunc (20 : ℚ))) ++ "s") ++
        (⟨["d"], "movie.mp4"⟩ : PyPath).suffixStr :=
  ⟨by decide, by decide, by decide,
    claim_output_path.2.1 "ffmpeg" ⟨["d"], "movie.mp4"⟩ "10" "20"
      (build_command "ffmpeg" ⟨["d"], "movie.mp4"⟩ ⟨["d"], "movie_10s_20s.mp4"⟩
        (format_timestamp 10) (format_timestamp 20))
      ⟨["d"], "movie_10s_20s.mp4"⟩ 10 20
      (by decide) (by decide) (by decide)⟩

/-- C9: the duration probe is total and returns the `None` sentinel on every
failure: tool missing, child process failing, or stdout that `float`
rejects; when the stdout parses, it returns that duration. -/
theorem claim_probe_total :
    (∀ r : Option String, probe_duration none r = none) ∧
    (∀ p : String, probe_duration (some p) none = none) ∧
    (∀ (p out : String), pyFloatL (stripChars out.toList) = none →
      probe_duration (some p) (some out) = none) ∧
    (∀ (p out : String) (q : ℚ), pyFloatL (stripChars out.toList) = some q →
      probe_duration (some p) (some out) = some q) := by
  refine ⟨fun r => rfl, fun p => rfl, ?_, ?_⟩
  · intro p out h
    exact h
  · intro p out q h
    exact h

/-- Witness for C9 at unparseable stdout `"n/a"`. -/
theorem claim_probe_total_witness :
    pyFloatL (stripChars ("n/a" : String).toList) = none ∧
    probe_duration (some "ffprobe") (some "n/a") = none :=
  ⟨by decide, claim_probe_total.2.2.1 "ffprobe" "n/a" (by decide)⟩

/-- C10 (implicit): `parse_timestamp` does not range-check segmented fields:
`"0:90"` parses to 90 and `"1:90"` to 150, so the distinct strings `"1:30"`
and `"0:90"` denote the same value. -/
theorem claim_no_range_check :
    parse_timestamp "0:90" = .ok 90 ∧ parse_timestamp "1:90" = .ok 150 ∧
    parse_timestamp "1:30" = parse_timestamp "0:90" ∧ ("1:30" : String) ≠ "0:90" :=
  ⟨by decide, by decide, by decide, by decide⟩
